import Mathlib

/-!
Verification of the matching/scoring engine of the Growth Accelerator staffing
platform, as implemented in `src/services/matching_service.py`.

The embedding models the Python code directly:
- numeric columns become `Option ℚ` (a `none` is a SQL NULL / Python `None`);
  Python truthiness on numbers (`if x:` / `x or d`) is modelled by `truthyQ`
  and `orQ`, which treat both `none` and `0` as falsy, exactly as Python does;
- free-text location strings become `List Char`; `str.lower`, `str.split(",")`
  and `str.strip()` are modelled for the ASCII fragment by `pyLower`,
  `pySplitComma` and `pyStrip`;
- `math.log10` becomes `Real.logb 10` (the scores are exact reals rather than
  IEEE floats; the scoring formulas contain no float-specific behaviour);
- the database session becomes explicit state threading over `MatchDB`;
  `db.session.rollback()` is modelled by returning the pre-transaction state;
- a raised-and-caught exception becomes an explicit error branch.

The ORM entity classes (`db/models`) are not part of the sources; their column
shapes are modelled from the spec, section 3 (data model).  All the logic the
claims are about lives in `matching_service.py` itself.
-/

/-- Python truthiness of a nullable number: `None` and `0` are falsy. -/
def truthyQ : Option ℚ → Bool
  | none => false
  | some x => x != 0

/-- Python `x or d` for a nullable number `x`: yields `d` when `x` is `None` or `0`. -/
def orQ (v : Option ℚ) (d : ℚ) : ℚ :=
  match v with
  | none => d
  | some x => if x = 0 then d else x

/-- ASCII model of Python `str.lower` on a single character. -/
def charLower (c : Char) : Char :=
  match c with
  | 'A' => 'a' | 'B' => 'b' | 'C' => 'c' | 'D' => 'd' | 'E' => 'e' | 'F' => 'f'
  | 'G' => 'g' | 'H' => 'h' | 'I' => 'i' | 'J' => 'j' | 'K' => 'k' | 'L' => 'l'
  | 'M' => 'm' | 'N' => 'n' | 'O' => 'o' | 'P' => 'p' | 'Q' => 'q' | 'R' => 'r'
  | 'S' => 's' | 'T' => 't' | 'U' => 'u' | 'V' => 'v' | 'W' => 'w' | 'X' => 'x'
  | 'Y' => 'y' | 'Z' => 'z'
  | c => c

/-- Model of Python `str.lower` over a string as a character list. -/
def pyLower (s : List Char) : List Char := s.map charLower

/-- Model of Python `s.split(",")`: always returns at least one segment. -/
def pySplitComma : List Char → List (List Char)
  | [] => [[]]
  | c :: rest =>
    match pySplitComma rest with
    | [] => [[]]
    | h :: t => if c = ',' then [] :: h :: t else (c :: h) :: t

/-- ASCII whitespace used by the `str.strip` model. -/
def isPySpace (c : Char) : Bool := c = ' ' || c = '\t' || c = '\n' || c = '\r'

/-- Model of Python `str.strip()` (ASCII whitespace). -/
def pyStrip (s : List Char) : List Char :=
  ((s.dropWhile isPySpace).reverse.dropWhile isPySpace).reverse

/-- Python `parts[-1]` on the (never empty) result of a split. -/
def lastSegment (s : List Char) : List Char := (pySplitComma s).getLastD []

/-- One `(skill, level, years)` tuple of a consultant (spec section 3). -/
structure ConsultantSkill where
  skill_id : Nat
  level : Option ℚ
  years_experience : Option ℚ
deriving DecidableEq

/-- Consultant row, restricted to the columns the matching engine reads. -/
structure Consultant where
  id : Nat
  status : String
  hourly_rate : Option ℚ
  location : Option (List Char)
  skills : List ConsultantSkill
deriving DecidableEq

/-- One `(skill, is_required, importance)` tuple of a job (spec section 3). -/
structure JobSkill where
  skill_id : Nat
  is_required : Bool
  importance : Option ℚ
deriving DecidableEq

/-- Job row, restricted to the columns the matching engine reads. -/
structure Job where
  id : Nat
  client_id : Option Nat
  status : String
  location : Option (List Char)
  rate_min : Option ℚ
  rate_max : Option ℚ
  required_skills : List JobSkill
deriving DecidableEq

/-- A `MatchingWeights` row, without its scope column (spec: WeightVector). -/
structure MatchingWeights where
  skill_weight : ℚ
  experience_weight : ℚ
  rate_weight : ℚ
  location_weight : ℚ
deriving DecidableEq

/-- Sum of the four weights of a weight vector. -/
def weightsSum (w : MatchingWeights) : ℚ :=
  w.skill_weight + w.experience_weight + w.rate_weight + w.location_weight

/-- The default global weights created by `MatchingService.__init__` (lines 28-33). -/
def defaultGlobalWeights : MatchingWeights :=
  { skill_weight := 1/2, experience_weight := 1/5, rate_weight := 1/5, location_weight := 1/10 }

/-- One entry of the `job_skills` dict built in `_calculate_matches_for_job`
(lines 422-429): the value already carries the defaulted importance. -/
structure JobSkillInfo where
  skill_id : Nat
  required : Bool
  importance : ℚ
deriving DecidableEq

/-- Python dict insertion `d[k] = v`: update in place if the key exists
(keeping its position), otherwise append at the end. -/
def insertJobSkill (d : List JobSkillInfo) (e : JobSkillInfo) : List JobSkillInfo :=
  match d with
  | [] => [e]
  | x :: xs => if x.skill_id = e.skill_id then e :: xs else x :: insertJobSkill xs e

/-- The `job_skills` dict of `_calculate_matches_for_job` (lines 422-428):
maps each skill id to its required flag and `importance or 3`. -/
def buildJobSkillsDict (l : List JobSkill) : List JobSkillInfo :=
  l.foldl (fun d js => insertJobSkill d ⟨js.skill_id, js.is_required, orQ js.importance 3⟩) []

/-- `total_importance` (line 429): sum of `importance or 3` over the raw
required-skill list (duplicates included, matching the Python loop). -/
def totalImportance (l : List JobSkill) : ℚ :=
  (l.map (fun js => orQ js.importance 3)).sum

/-- The accumulated skill score of the first loop of `_calculate_skill_match`
(lines 589-603): for each consultant skill found in the job dict, add
`(level or 3)/5 * importance/total_importance`. -/
def rawSkillScore (cskills : List ConsultantSkill) (d : List JobSkillInfo)
    (total_importance : ℚ) : ℚ :=
  (cskills.map (fun cs =>
    match d.find? (fun e => e.skill_id == cs.skill_id) with
    | some e => (orQ cs.level 3 / 5) * (e.importance / total_importance)
    | none => 0)).sum

/-- `_calculate_skill_match` (lines 584-622). -/
def calculate_skill_match (cskills : List ConsultantSkill) (d : List JobSkillInfo)
    (total_importance : ℚ) : ℚ :=
  if d.isEmpty then 1/2
  else
    let score := rawSkillScore cskills d total_importance
    let missing_required := d.any (fun e =>
      e.required && !(cskills.any (fun cs => cs.skill_id == e.skill_id)))
    let score2 := if missing_required then max 0 (score - 3/10) else score
    min 1 score2

/-- The years values the loop of `_calculate_experience_match` (lines 634-637)
actually counts: `if cs.years_experience:` skips both `None` and `0`. -/
def truthyYears (cskills : List ConsultantSkill) : List ℚ :=
  cskills.filterMap (fun cs =>
    match cs.years_experience with
    | some y => if y = 0 then none else some y
    | none => none)

/-- `avg_years = total_years / skill_count` (line 643). -/
def avgYears (cskills : List ConsultantSkill) : ℚ :=
  (truthyYears cskills).sum / (truthyYears cskills).length

/-- `_calculate_experience_match` (lines 624-649); the `job` argument of the
Python method is unused there and dropped here. -/
noncomputable def calculate_experience_match (cskills : List ConsultantSkill) : ℝ :=
  if truthyYears cskills = [] then 1/2
  else min 1 (Real.logb 10 (1 + (avgYears cskills : ℝ)) / Real.logb 10 11)

/-- `_calculate_rate_match` (lines 651-674). -/
def calculate_rate_match (hourly_rate rate_min rate_max : Option ℚ) : ℚ :=
  if !truthyQ hourly_rate || !truthyQ rate_min || !truthyQ rate_max then 1/2
  else
    let r := hourly_rate.getD 0
    let lo := rate_min.getD 0
    let hi := rate_max.getD 0
    if lo ≤ r ∧ r ≤ hi then 1
    else if r < lo then max 0 (1 - (lo - r) / lo)
    else max 0 (1 - (r - hi) / hi)

/-- `_calculate_location_match` (lines 676-703); the second argument is the
already-lowercased job location prepared by the callers (lines 432 and 538). -/
def calculate_location_match (consultant_location : Option (List Char))
    (job_location_lower : List Char) : ℚ :=
  if job_location_lower.isEmpty || (consultant_location.getD []).isEmpty then 1/2
  else
    let cl := pyLower (consultant_location.getD [])
    if cl = job_location_lower then 1
    else
      let location_parts := pySplitComma job_location_lower
      let consultant_parts := pySplitComma cl
      if 1 < location_parts.length ∧ 1 < consultant_parts.length then
        if pyStrip (location_parts.getLastD []) = pyStrip (consultant_parts.getLastD []) then
          8/10
        else 2/10
      else 2/10

/-- The location-score pipeline for one consultant/job pair: line 432
(`job.location.lower() if job.location else ""`) composed with
`_calculate_location_match`. -/
def location_score_of_pair (consultant_location job_location : Option (List Char)) : ℚ :=
  calculate_location_match consultant_location ((job_location.map pyLower).getD [])

/-- A persisted `MatchScore` row.  Component and total scores are stored at the
0-100 scale.  Modelled from the spec: the ORM class lives in `db/models`
(outside the sources); spec section 3 gives one row per (consultant, job) pair
with four component scores, a total and a last-computed timestamp.  Time is an
abstract rational number of hours. -/
structure MatchRow where
  consultant_id : Nat
  job_id : Nat
  total_score : ℝ
  skill_score : ℝ
  experience_score : ℝ
  rate_score : ℝ
  location_score : ℝ
  last_calculated : ℚ

/-- The database state seen by the service: the tables it reads and the
`match_score` table it writes. -/
structure MatchDB where
  jobs : List Job
  consultants : List Consultant
  applications : List (Nat × Nat)
  weight_rows : List (Option Nat × MatchingWeights)
  scores : List MatchRow

/-- A structured operation result: the `status: success/error` dict the
service returns (spec section 6). -/
inductive PyResult (α : Type) where
  | success (payload : α)
  | error (message : String)

/-- True exactly on a success result. -/
def PyResult.isSuccess {α : Type} : PyResult α → Bool
  | .success _ => true
  | .error _ => false

/-- True exactly on an error result. -/
def PyResult.isError {α : Type} : PyResult α → Bool
  | .success _ => false
  | .error _ => true

/-- The `from datetime import ...` list of `matching_service.py`, line 9. -/
def matchingServiceDatetimeImports : List String := ["datetime", "timedelta"]

/-- Whether the name `timezone` is bound in the module: it is not, since
line 9 imports only `datetime` and `timedelta`. -/
def timezoneInScope : Bool := matchingServiceDatetimeImports.contains "timezone"

/-- `Consultant.query.filter_by(status='active')` (line 419). -/
def activeConsultants (db : MatchDB) : List Consultant :=
  db.consultants.filter (fun c => c.status == "active")

/-- `Job.query.filter_by(status='open')` (lines 247 and 503). -/
def openJobs (db : MatchDB) : List Job :=
  db.jobs.filter (fun j => j.status == "open")

/-- `MatchingWeights.query.filter_by(client_id=...).first() or self.global_weights`
(lines 56, 260 and 516). -/
def weightsForClient (db : MatchDB) (global : MatchingWeights)
    (client_id : Option Nat) : MatchingWeights :=
  ((db.weight_rows.find? (fun e => e.1 == client_id)).map (fun e => e.2)).getD global

/-- Whether a row belongs to the given (consultant, job) pair. -/
def rowHasPair (x : MatchRow) (cid jid : Nat) : Bool :=
  x.consultant_id == cid && x.job_id == jid

/-- The update branch of the upsert (lines 462-468): the first row returned by
`filter_by(consultant_id, job_id).first()` is overwritten field by field. -/
def updateFirstRow : List MatchRow → MatchRow → List MatchRow
  | [], _ => []
  | x :: xs, r =>
    if rowHasPair x r.consultant_id r.job_id then r :: xs
    else x :: updateFirstRow xs r

/-- Update-or-insert of one `MatchScore` row (lines 456-479). -/
def upsertMatchRow (rows : List MatchRow) (r : MatchRow) : List MatchRow :=
  if rows.any (fun x => rowHasPair x r.consultant_id r.job_id) then updateFirstRow rows r
  else rows ++ [r]

/-- The row computed for one consultant/job pair (lines 436-478): the four
component scorers, the weighted total scaled to 0-100, and the component
scores stored at the 0-100 scale. -/
noncomputable def matchRowFor (c : Consultant) (job : Job) (w : MatchingWeights)
    (now : ℚ) : MatchRow :=
  let d := buildJobSkillsDict job.required_skills
  let t := totalImportance job.required_skills
  let skill_score := calculate_skill_match c.skills d t
  let experience_score := calculate_experience_match c.skills
  let rate_score := calculate_rate_match c.hourly_rate job.rate_min job.rate_max
  let job_location_lower := (job.location.map pyLower).getD []
  let location_score := calculate_location_match c.location job_location_lower
  let total : ℝ :=
    ((skill_score : ℝ) * (w.skill_weight : ℝ)
      + experience_score * (w.experience_weight : ℝ)
      + (rate_score : ℝ) * (w.rate_weight : ℝ)
      + (location_score : ℝ) * (w.location_weight : ℝ)) * 100
  { consultant_id := c.id
    job_id := job.id
    total_score := total
    skill_score := (skill_score : ℝ) * 100
    experience_score := experience_score * 100
    rate_score := (rate_score : ℝ) * 100
    location_score := (location_score : ℝ) * 100
    last_calculated := now }

/-- `_calculate_matches_for_job` (lines 406-489).  `fails` says whether the
underlying storage raises during this transaction; additionally, when
`timezone` is not in scope and the loop hits the update branch (line 468), a
`NameError` is raised.  Either way the internal handler catches, rolls the
session back and returns 0, leaving the database unchanged. -/
noncomputable def calculate_matches_for_job (tz fails : Bool) (db : MatchDB)
    (job : Job) (w : MatchingWeights) (now : ℚ) : Nat × MatchDB :=
  let consultants := activeConsultants db
  if fails
      || (!tz && consultants.any (fun c => db.scores.any (fun x => rowHasPair x c.id job.id))) then
    (0, db)
  else
    (consultants.length,
      { db with scores :=
          consultants.foldl (fun acc c => upsertMatchRow acc (matchRowFor c job w now)) db.scores })

/-- `_calculate_matches_for_consultant` (lines 491-582), with the same failure
model as `calculate_matches_for_job`; weights are looked up per job. -/
noncomputable def calculate_matches_for_consultant (tz fails : Bool)
    (global : MatchingWeights) (db : MatchDB) (c : Consultant) (now : ℚ) : Nat × MatchDB :=
  let jobs := openJobs db
  if fails
      || (!tz && jobs.any (fun j => db.scores.any (fun x => rowHasPair x c.id j.id))) then
    (0, db)
  else
    let newScores := jobs.foldl
      (fun acc j => upsertMatchRow acc (matchRowFor c j (weightsForClient db global j.client_id) now))
      db.scores
    (jobs.length, { db with scores := newScores })

/-- Descending insertion into a list sorted by `total_score` (the
`order_by(total_score.desc())` of lines 79 and 184). -/
noncomputable def insertByScoreDesc (r : MatchRow) : List MatchRow → List MatchRow
  | [] => [r]
  | x :: xs => if x.total_score < r.total_score then r :: x :: xs else x :: insertByScoreDesc r xs

/-- Sort rows by total score, highest first. -/
noncomputable def sortByScoreDesc (rows : List MatchRow) : List MatchRow :=
  rows.foldr insertByScoreDesc []

/-- `find_matches_for_job` (lines 37-138).  The staleness check at line 59
evaluates `datetime.now(timezone.utc)` before anything else in the `try`
block, so when `timezone` is not in scope the whole call resolves to the
generic exception handler (lines 133-138). -/
noncomputable def find_matches_for_job (tz fails : Bool) (global : MatchingWeights)
    (db : MatchDB) (now : ℚ) (job_id limit : Nat) (min_score : ℝ)
    (recalculate : Bool) : PyResult (List MatchRow) × MatchDB :=
  match db.jobs.find? (fun j => j.id == job_id) with
  | none => (.error "Job not found", db)
  | some job =>
    let w := weightsForClient db global job.client_id
    if !tz then (.error "Unable to find matches: name 'timezone' is not defined", db)
    else
      let stale_time := now - 24
      let needs_calc := recalculate
        || !(db.scores.any (fun x => x.job_id == job_id))
        || db.scores.any (fun x => x.job_id == job_id && decide (x.last_calculated < stale_time))
      let db2 := if needs_calc then (calculate_matches_for_job tz fails db job w now).2 else db
      let existing_applicants := (db2.applications.filter (fun a => a.2 == job_id)).map (fun a => a.1)
      let rows := db2.scores.filter (fun x =>
        x.job_id == job_id && decide (min_score ≤ x.total_score)
          && !(existing_applicants.contains x.consultant_id))
      (.success ((sortByScoreDesc rows).take limit), db2)

/-- `find_jobs_for_consultant` (lines 140-236).  Note that, unlike the job
direction, the staleness condition (lines 160-163) has no
"no rows exist yet" disjunct, and the open-jobs filter (lines 178-181) is
applied only when at least one open job exists. -/
noncomputable def find_jobs_for_consultant (tz fails : Bool) (global : MatchingWeights)
    (db : MatchDB) (now : ℚ) (consultant_id limit : Nat) (min_score : ℝ)
    (recalculate : Bool) : PyResult (List MatchRow) × MatchDB :=
  match db.consultants.find? (fun c => c.id == consultant_id) with
  | none => (.error "Consultant not found", db)
  | some c =>
    if !tz then (.error "Unable to find job matches: name 'timezone' is not defined", db)
    else
      let stale_time := now - 24
      let needs_calc := recalculate
        || db.scores.any (fun x =>
            x.consultant_id == consultant_id && decide (x.last_calculated < stale_time))
      let db2 :=
        if needs_calc then (calculate_matches_for_consultant tz fails global db c now).2 else db
      let existing_applications :=
        (db2.applications.filter (fun a => a.1 == consultant_id)).map (fun a => a.2)
      let open_job_ids := (openJobs db2).map (fun j => j.id)
      let rows := db2.scores.filter (fun x =>
        x.consultant_id == consultant_id && decide (min_score ≤ x.total_score)
          && !(existing_applications.contains x.job_id)
          && (open_job_ids.isEmpty || open_job_ids.contains x.job_id))
      (.success ((sortByScoreDesc rows).take limit), db2)

/-- `recalculate_all_matches` (lines 238-274): every open job against all
active consultants; failures inside `_calculate_matches_for_job` are swallowed
there, so this always returns a success result. -/
noncomputable def recalculate_all_matches (tz fails : Bool) (global : MatchingWeights)
    (db : MatchDB) (now : ℚ) : PyResult String × MatchDB :=
  let step := fun (acc : Nat × MatchDB) (j : Job) =>
    let w := weightsForClient acc.2 global j.client_id
    let r := calculate_matches_for_job tz fails acc.2 j w now
    (acc.1 + r.1, r.2)
  let res := (openJobs db).foldl step (0, db)
  (.success "Recalculated all matches", res.2)

/-- The aggregate payload of `get_matching_statistics` (display rounding of
the average, a formatting concern, is omitted). -/
structure MatchStatistics where
  total_matches : Nat
  recent_matches : Nat
  average_score : ℝ
  high_score_matches : Nat
  low_score_matches : Nat
  top_matching_jobs : List (Nat × Nat)

/-- Count-descending insertion for the top-jobs listing. -/
def insertByCountDesc (e : Nat × Nat) : List (Nat × Nat) → List (Nat × Nat)
  | [] => [e]
  | x :: xs => if x.2 < e.2 then e :: x :: xs else x :: insertByCountDesc e xs

/-- `get_matching_statistics` (lines 345-404): the count at line 354 is a pure
read, then line 357 evaluates `datetime.now(timezone.utc)`, so without
`timezone` in scope every call resolves to the handler at lines 399-404. -/
noncomputable def get_matching_statistics (tz : Bool) (db : MatchDB) (now : ℚ) :
    PyResult MatchStatistics :=
  if !tz then .error "Unable to retrieve statistics: name 'timezone' is not defined"
  else
    let total := db.scores.length
    let day_ago := now - 24
    let recent := (db.scores.filter (fun x => decide (day_ago ≤ x.last_calculated))).length
    let avg : ℝ :=
      if db.scores.isEmpty then 0 else (db.scores.map (fun x => x.total_score)).sum / total
    let highRows := db.scores.filter (fun x => decide ((75 : ℝ) < x.total_score))
    let low := (db.scores.filter (fun x => decide (x.total_score < (50 : ℝ)))).length
    let job_ids := (highRows.map (fun x => x.job_id)).dedup
    let counts := job_ids.map (fun j => (j, (highRows.filter (fun x => x.job_id == j)).length))
    let top := ((counts.foldr insertByCountDesc []).take 5).filter
      (fun e => (db.jobs.find? (fun j => j.id == e.1)).isSome)
    .success
      { total_matches := total, recent_matches := recent, average_score := avg
        high_score_matches := highRows.length, low_score_matches := low
        top_matching_jobs := top }

/-- A value arriving in the `weights_data` dict: either one that `float()`
accepts, or one it rejects with an exception (a non-numeric string). -/
inductive PyNum where
  | valid (q : ℚ)
  | invalid
deriving DecidableEq

/-- The (partial) `weights_data` input of `update_matching_weights`. -/
structure WeightsUpdateData where
  skill_weight : Option PyNum
  experience_weight : Option PyNum
  rate_weight : Option PyNum
  location_weight : Option PyNum
deriving DecidableEq

/-- One `if 'field' in weights_data: w.field = float(...)` step
(lines 297-307): absent keeps the current value, a non-numeric value raises. -/
def pyFloatField (current : ℚ) : Option PyNum → Except String ℚ
  | none => .ok current
  | some (.valid q) => .ok q
  | some .invalid => .error "could not convert string to float"

/-- Lines 296-307 of `update_matching_weights`: apply the four partial
updates in order; the first malformed value raises. -/
def applyWeightUpdates (w : MatchingWeights) (d : WeightsUpdateData) :
    Except String MatchingWeights :=
  match pyFloatField w.skill_weight d.skill_weight with
  | .error m => .error m
  | .ok s =>
    match pyFloatField w.experience_weight d.experience_weight with
    | .error m => .error m
    | .ok e =>
      match pyFloatField w.rate_weight d.rate_weight with
      | .error m => .error m
      | .ok r =>
        match pyFloatField w.location_weight d.location_weight with
        | .error m => .error m
        | .ok l =>
          .ok { skill_weight := s, experience_weight := e, rate_weight := r,
                location_weight := l }

/-- Lines 309-315: divide by the total only when it is strictly positive. -/
def normalizeWeights (w : MatchingWeights) : MatchingWeights :=
  let total := weightsSum w
  if 0 < total then
    { skill_weight := w.skill_weight / total
      experience_weight := w.experience_weight / total
      rate_weight := w.rate_weight / total
      location_weight := w.location_weight / total }
  else w

/-- `update_matching_weights` (lines 276-343) for one scope: `current` is the
stored weight vector of that scope (or the fresh row created for a new
client).  Returns the operation result and the stored vector afterwards: on an
exception the session is rolled back (line 338), so the stored vector is
unchanged. -/
def update_matching_weights (current : MatchingWeights) (d : WeightsUpdateData) :
    PyResult MatchingWeights × MatchingWeights :=
  match applyWeightUpdates current d with
  | .ok w =>
    let w2 := normalizeWeights w
    (.success w2, w2)
  | .error m => (.error ("Unable to update weights: " ++ m), current)

/-- Claim C4 as stated: "if any of the three values is missing the rate score
is 0.5", with the remaining cases read in the order the claim lists them.
Here "missing" is a database NULL (`none`); a stored 0 is a present value. -/
def rateScoreClaimC4 (hourly_rate rate_min rate_max : Option ℚ) : ℚ :=
  match hourly_rate, rate_min, rate_max with
  | some r, some lo, some hi =>
    if lo ≤ r ∧ r ≤ hi then 1
    else if r < lo then max 0 (1 - (lo - r) / lo)
    else max 0 (1 - (r - hi) / hi)
  | _, _, _ => 1/2

/-- Claim C4 amended: a value that is missing or zero gives the neutral 0.5
(the code tests Python truthiness, so a stored 0 falls into the neutral
branch); the remaining cases are unchanged. -/
def rateScoreClaimC4Amended (hourly_rate rate_min rate_max : Option ℚ) : ℚ :=
  match hourly_rate, rate_min, rate_max with
  | some r, some lo, some hi =>
    if r = 0 ∨ lo = 0 ∨ hi = 0 then 1/2
    else if lo ≤ r ∧ r ≤ hi then 1
    else if r < lo then max 0 (1 - (lo - r) / lo)
    else max 0 (1 - (r - hi) / hi)
  | _, _, _ => 1/2

/-- Claim C5 as stated: blank on either side gives 0.5; an exact
case-insensitive match gives 1.0; otherwise, when both strings contain a comma
and their last comma-delimited segments agree after trimming
(case-insensitively), exactly 0.8; in all other cases exactly 0.2. -/
def locationScoreClaimC5 (consultant_location job_location : Option (List Char)) : ℚ :=
  let c := consultant_location.getD []
  let j := job_location.getD []
  if j = [] ∨ c = [] then 1/2
  else if pyLower c = pyLower j then 1
  else if (',' ∈ c ∧ ',' ∈ j)
      ∧ pyStrip (lastSegment (pyLower c)) = pyStrip (lastSegment (pyLower j)) then 8/10
  else 2/10

/-- Claim C6 as stated: entries whose years value is present (a non-NULL
column, so a stored 0 counts as present) enter the average; only when no entry
has a years value is the neutral 0.5 returned. -/
noncomputable def experienceScoreClaimC6 (cskills : List ConsultantSkill) : ℝ :=
  let present := cskills.filterMap (fun cs => cs.years_experience)
  if present = [] then 1/2
  else min 1 (Real.logb 10 (1 + ((present.sum / present.length : ℚ) : ℝ)) / Real.logb 10 11)

/-- At most one `MatchScore` row per (consultant, job) pair
(spec section 3, uniqueness invariant). -/
def PairUnique (rows : List MatchRow) : Prop :=
  rows.Pairwise (fun a b => a.consultant_id ≠ b.consultant_id ∨ a.job_id ≠ b.job_id)

/-- One recomputation-triggering call of the public surface (claim C7): any of
the three entry points, with arbitrary arguments and failure behaviour. -/
inductive MatchingOp where
  | forJob (tz fails : Bool) (global : MatchingWeights) (now : ℚ) (job_id limit : Nat)
      (min_score : ℝ) (recalculate : Bool)
  | forConsultant (tz fails : Bool) (global : MatchingWeights) (now : ℚ)
      (consultant_id limit : Nat) (min_score : ℝ) (recalculate : Bool)
  | recalcAll (tz fails : Bool) (global : MatchingWeights) (now : ℚ)

/-- The database state after one public call. -/
noncomputable def applyMatchingOp (db : MatchDB) : MatchingOp → MatchDB
  | .forJob tz fails global now job_id limit min_score recalculate =>
    (find_matches_for_job tz fails global db now job_id limit min_score recalculate).2
  | .forConsultant tz fails global now consultant_id limit min_score recalculate =>
    (find_jobs_for_consultant tz fails global db now consultant_id limit min_score recalculate).2
  | .recalcAll tz fails global now =>
    (recalculate_all_matches tz fails global db now).2

/-! ## Theorems -/

/-- Claim C4, counterexample: a consultant whose stored hourly rate is 0 is a
present (non-missing) value, so the claim as stated puts it in the
below-minimum branch with score `max 0 (1 - (10 - 0)/10) = 0`, but the code
tests Python truthiness and returns the neutral 0.5. -/
theorem C4_counterexample :
    calculate_rate_match (some 0) (some 10) (some 20)
        ≠ rateScoreClaimC4 (some 0) (some 10) (some 20)
      ∧ calculate_rate_match (some 0) (some 10) (some 20) = 1/2
      ∧ rateScoreClaimC4 (some 0) (some 10) (some 20) = 0 := by
  have h1 : calculate_rate_match (some 0) (some 10) (some 20) = 1/2 := by
    simp [calculate_rate_match, truthyQ]
  have h2 : rateScoreClaimC4 (some 0) (some 10) (some 20) = 0 := by
    norm_num [rateScoreClaimC4]
  refine ⟨by rw [h1, h2]; norm_num, h1, h2⟩

/-- Claim C4 as amended: for every consultant hourly rate and job rate range,
if any of the three values is missing or zero the rate score is 0.5; if
`rate_min ≤ rate ≤ rate_max` the score is 1.0; if `rate < rate_min` it is
`max 0 (1 - (rate_min - rate)/rate_min)`; otherwise (`rate > rate_max`) it is
`max 0 (1 - (rate - rate_max)/rate_max)`. -/
theorem C4_rate_score_amended (hourly_rate rate_min rate_max : Option ℚ) :
    calculate_rate_match hourly_rate rate_min rate_max
      = rateScoreClaimC4Amended hourly_rate rate_min rate_max := by
  rcases hourly_rate with _ | r <;> rcases rate_min with _ | lo <;> rcases rate_max with _ | hi <;>
    simp only [calculate_rate_match, rateScoreClaimC4Amended, truthyQ, Bool.not_false,
      Bool.true_or, Bool.or_true, if_true, Option.getD_some]
  by_cases hr : r = 0 <;> by_cases hlo : lo = 0 <;> by_cases hhi : hi = 0 <;>
    simp [hr, hlo, hhi]

/-- The split of a string always has at least one segment. -/
theorem pySplitComma_ne_nil (s : List Char) : pySplitComma s ≠ [] := by
  induction s with
  | nil => simp [pySplitComma]
  | cons c rest ih =>
    cases h : pySplitComma rest with
    | nil => exact absurd h ih
    | cons hd tl =>
      rw [pySplitComma, h]
      by_cases hc : c = ',' <;> simp [hc]

/-- A split has more than one segment exactly when the string contains a
comma. -/
theorem one_lt_pySplitComma_length_iff (s : List Char) :
    1 < (pySplitComma s).length ↔ ',' ∈ s := by
  induction s with
  | nil => simp [pySplitComma]
  | cons c rest ih =>
    cases h : pySplitComma rest with
    | nil => exact absurd h (pySplitComma_ne_nil rest)
    | cons hd tl =>
      rw [pySplitComma, h]
      rw [h] at ih
      by_cases hc : c = ','
      · simp [hc]
      · simpa [hc, eq_comm] using ih

/-- Lowercasing maps no character onto a comma except the comma itself. -/
theorem charLower_eq_comma_iff (c : Char) : charLower c = ',' ↔ c = ',' := by
  unfold charLower
  split <;> simp_all

/-- A lowered string contains a comma exactly when the original does. -/
theorem comma_mem_pyLower_iff (s : List Char) : ',' ∈ pyLower s ↔ ',' ∈ s := by
  simp [pyLower, List.mem_map, charLower_eq_comma_iff]

/-- Lowering preserves emptiness. -/
theorem pyLower_eq_nil_iff (s : List Char) : pyLower s = [] ↔ s = [] := by
  simp [pyLower]

/-- The lowered job location prepared at line 432 equals lowering the
defaulted location. -/
theorem map_pyLower_getD (o : Option (List Char)) :
    (o.map pyLower).getD [] = pyLower (o.getD []) := by
  cases o <;> simp [pyLower]

/-- Claim C5, confirmed: for every pair of location strings, a blank on either
side scores 0.5; an exact case-insensitive match scores 1.0; otherwise, when
both contain a comma and their last comma-delimited segments agree after
trimming (case-insensitively), exactly 0.8; in all other cases exactly 0.2 —
the code path equals the claim, case by case. -/
theorem C5_location_score (consultant_location job_location : Option (List Char)) :
    location_score_of_pair consultant_location job_location
      = locationScoreClaimC5 consultant_location job_location := by
  by_cases hjn : job_location.getD [] = []
  · simp [location_score_of_pair, calculate_location_match, locationScoreClaimC5,
      map_pyLower_getD, hjn, pyLower]
  by_cases hcn : consultant_location.getD [] = []
  · simp [location_score_of_pair, calculate_location_match, locationScoreClaimC5,
      map_pyLower_getD, hjn, hcn, pyLower_eq_nil_iff, List.isEmpty_iff]
  by_cases hexact : pyLower (consultant_location.getD []) = pyLower (job_location.getD [])
  · simp [location_score_of_pair, calculate_location_match, locationScoreClaimC5,
      map_pyLower_getD, hjn, hcn, pyLower_eq_nil_iff, List.isEmpty_iff, hexact]
  by_cases hcj : ',' ∈ job_location.getD []
  · by_cases hcc : ',' ∈ consultant_location.getD []
    · by_cases hseg : pyStrip ((pySplitComma (pyLower (job_location.getD []))).getLast?.getD [])
          = pyStrip ((pySplitComma (pyLower (consultant_location.getD []))).getLast?.getD [])
      · have hseg2 := hseg.symm
        simp [location_score_of_pair, calculate_location_match, locationScoreClaimC5,
          lastSegment, map_pyLower_getD, hjn, hcn, pyLower_eq_nil_iff, List.isEmpty_iff,
          hexact, one_lt_pySplitComma_length_iff, comma_mem_pyLower_iff, hcj, hcc, hseg2]
      · have hseg2 : ¬(pyStrip ((pySplitComma (pyLower (consultant_location.getD []))).getLast?.getD [])
            = pyStrip ((pySplitComma (pyLower (job_location.getD []))).getLast?.getD [])) :=
          fun h => hseg h.symm
        simp [location_score_of_pair, calculate_location_match, locationScoreClaimC5,
          lastSegment, map_pyLower_getD, hjn, hcn, pyLower_eq_nil_iff, List.isEmpty_iff,
          hexact, one_lt_pySplitComma_length_iff, comma_mem_pyLower_iff, hcj, hcc,
          hseg, hseg2]
    · simp [location_score_of_pair, calculate_location_match, locationScoreClaimC5,
        lastSegment, map_pyLower_getD, hjn, hcn, pyLower_eq_nil_iff, List.isEmpty_iff,
        hexact, one_lt_pySplitComma_length_iff, comma_mem_pyLower_iff, hcj, hcc]
  · simp [location_score_of_pair, calculate_location_match, locationScoreClaimC5,
      lastSegment, map_pyLower_getD, hjn, hcn, pyLower_eq_nil_iff, List.isEmpty_iff,
      hexact, one_lt_pySplitComma_length_iff, comma_mem_pyLower_iff, hcj]

/-- Claim C6, counterexample: a consultant with a single skill entry whose
years value is 0 has a present years value, so the claim as stated averages
to 0 and yields `min 1 (log10(1+0)/log10 11) = 0`; the code's truthiness test
`if cs.years_experience:` skips the 0 entry and returns the neutral 0.5. -/
theorem C6_counterexample :
    calculate_experience_match [⟨1, none, some 0⟩] = 1/2
      ∧ experienceScoreClaimC6 [⟨1, none, some 0⟩] = 0
      ∧ ((1:ℝ)/2 : ℝ) ≠ 0 := by
  refine ⟨by simp [calculate_experience_match, truthyYears], ?_, by norm_num⟩
  have : (([(0:ℚ)].sum / ([(0:ℚ)].length : ℚ) : ℚ) : ℝ) = 0 := by norm_num
  simp [experienceScoreClaimC6, List.filterMap, this, Real.logb_one]

/-- Claim C6 as amended: skill entries whose years value is missing or zero
are skipped; if no entry carries a nonzero years value the experience score is
the neutral 0.5; otherwise, with `avg_years` the average of the counted years
values, the score is `min 1 (log10 (1 + avg_years) / log10 11)`, an average of
10 years yields exactly 1.0, and the score is monotone in the average. -/
theorem C6_experience_amended (c1 c2 : List ConsultantSkill)
    (h1 : truthyYears c1 ≠ []) (h2 : truthyYears c2 ≠ [])
    (h0 : 0 ≤ avgYears c1) (hle : avgYears c1 ≤ avgYears c2) :
    calculate_experience_match c1
        = min 1 (Real.logb 10 (1 + (avgYears c1 : ℝ)) / Real.logb 10 11)
      ∧ calculate_experience_match c1 ≤ calculate_experience_match c2
      ∧ (avgYears c1 = 10 → calculate_experience_match c1 = 1)
      ∧ (∀ c, truthyYears c = [] → calculate_experience_match c = 1/2) := by
  have hb : (1:ℝ) < 10 := by norm_num
  have hD : 0 < Real.logb 10 11 := Real.logb_pos hb (by norm_num)
  refine ⟨by simp [calculate_experience_match, h1], ?_, ?_, ?_⟩
  · have ha1 : (0:ℝ) ≤ (avgYears c1 : ℝ) := by exact_mod_cast h0
    have hle2 : (avgYears c1 : ℝ) ≤ (avgYears c2 : ℝ) := by exact_mod_cast hle
    have hlog : Real.logb 10 (1 + (avgYears c1 : ℝ)) ≤ Real.logb 10 (1 + (avgYears c2 : ℝ)) :=
      Real.logb_le_logb_of_le hb (by linarith) (by linarith)
    simp only [calculate_experience_match, if_neg h1, if_neg h2]
    exact min_le_min le_rfl (div_le_div_of_nonneg_right hlog hD.le)
  · intro h10
    simp only [calculate_experience_match, if_neg h1, h10]
    have h11 : (1 + ((10:ℚ) : ℝ)) = 11 := by norm_num
    rw [h11, div_self (ne_of_gt hD), min_self]
  · intro c hcn
    simp [calculate_experience_match, hcn]

/-- Witness for C6: concrete consultants with averages 5 and 10 years. -/
theorem C6_experience_amended_witness :
    truthyYears [⟨1, none, some 5⟩] ≠ [] ∧ truthyYears [⟨2, none, some 10⟩] ≠ []
      ∧ 0 ≤ avgYears [⟨1, none, some 5⟩]
      ∧ avgYears [⟨1, none, some 5⟩] ≤ avgYears [⟨2, none, some 10⟩]
      ∧ calculate_experience_match [⟨1, none, some 5⟩]
          ≤ calculate_experience_match [⟨2, none, some 10⟩] :=
  ⟨by simp [truthyYears], by simp [truthyYears],
    by norm_num [avgYears, truthyYears, List.filterMap_cons],
    by norm_num [avgYears, truthyYears, List.filterMap_cons],
    (C6_experience_amended [⟨1, none, some 5⟩] [⟨2, none, some 10⟩]
      (by simp [truthyYears]) (by simp [truthyYears])
      (by norm_num [avgYears, truthyYears, List.filterMap_cons]) (by norm_num [avgYears, truthyYears, List.filterMap_cons])).2.1⟩

/-- The defaulted value `x or d` is nonnegative when the stored value and the
default are. -/
theorem orQ_nonneg (v : Option ℚ) (d : ℚ) (hd : 0 ≤ d) (hv : 0 ≤ v.getD 0) :
    0 ≤ orQ v d := by
  cases v with
  | none => simpa [orQ]
  | some x =>
    simp only [orQ, Option.getD_some] at *
    split <;> assumption

/-- Every entry of a Python-dict insertion is the inserted entry or an old one. -/
theorem mem_insertJobSkill {d : List JobSkillInfo} {e x : JobSkillInfo}
    (h : x ∈ insertJobSkill d e) : x = e ∨ x ∈ d := by
  induction d with
  | nil => simpa [insertJobSkill] using h
  | cons y ys ih =>
    rw [insertJobSkill] at h
    by_cases hy : y.skill_id = e.skill_id
    · rw [if_pos hy] at h
      rcases List.mem_cons.mp h with h | h
      · exact Or.inl h
      · exact Or.inr (List.mem_cons_of_mem _ h)
    · rw [if_neg hy] at h
      rcases List.mem_cons.mp h with h | h
      · exact Or.inr (h ▸ List.mem_cons_self _ _)
      · rcases ih h with h | h
        · exact Or.inl h
        · exact Or.inr (List.mem_cons_of_mem _ h)

/-- A property holding for the seed entries and every inserted entry holds for
the whole dict-building fold. -/
theorem foldl_insertJobSkill_forall (P : JobSkillInfo → Prop) :
    ∀ (l : List JobSkill) (d0 : List JobSkillInfo),
      (∀ x ∈ d0, P x) →
      (∀ js ∈ l, P ⟨js.skill_id, js.is_required, orQ js.importance 3⟩) →
      ∀ x ∈ l.foldl
        (fun d js => insertJobSkill d ⟨js.skill_id, js.is_required, orQ js.importance 3⟩) d0,
      P x := by
  intro l
  induction l with
  | nil => intro d0 h0 _ x hx; exact h0 x hx
  | cons js rest ih =>
    intro d0 h0 hl x hx
    simp only [List.foldl_cons] at hx
    refine ih _ ?_ (fun j hj => hl j (List.mem_cons_of_mem _ hj)) x hx
    intro y hy
    rcases mem_insertJobSkill hy with h | h
    · exact h ▸ hl js (List.mem_cons_self _ _)
    · exact h0 y h

/-- All importances in the dict are nonnegative when the stored column values
are. -/
theorem buildJobSkillsDict_importance_nonneg (l : List JobSkill)
    (h : ∀ js ∈ l, 0 ≤ orQ js.importance 3) :
    ∀ e ∈ buildJobSkillsDict l, 0 ≤ e.importance :=
  foldl_insertJobSkill_forall (fun e => 0 ≤ e.importance) l [] (by simp) h

/-- The importance denominator is nonnegative when the stored values are. -/
theorem totalImportance_nonneg (l : List JobSkill)
    (h : ∀ js ∈ l, 0 ≤ orQ js.importance 3) : 0 ≤ totalImportance l := by
  apply List.sum_nonneg
  intro x hx
  rw [List.mem_map] at hx
  obtain ⟨js, hjs, rfl⟩ := hx
  exact h js hjs

/-- The accumulated raw skill score is nonnegative for well-formed data. -/
theorem rawSkillScore_nonneg (cskills : List ConsultantSkill) (d : List JobSkillInfo) (t : ℚ)
    (hl : ∀ cs ∈ cskills, 0 ≤ orQ cs.level 3)
    (hi : ∀ e ∈ d, 0 ≤ e.importance) (ht : 0 ≤ t) :
    0 ≤ rawSkillScore cskills d t := by
  unfold rawSkillScore
  apply List.sum_nonneg
  intro q hq
  rw [List.mem_map] at hq
  obtain ⟨cs, hcs, rfl⟩ := hq
  cases hfind : d.find? (fun e => e.skill_id == cs.skill_id) with
  | none => simp [hfind]
  | some e =>
    simp only [hfind]
    have he : e ∈ d := List.mem_of_find?_eq_some hfind
    exact mul_nonneg (div_nonneg (hl cs hcs) (by norm_num)) (div_nonneg (hi e he) ht)

/-- The skill score never exceeds 1. -/
theorem calculate_skill_match_le_one (cskills : List ConsultantSkill)
    (d : List JobSkillInfo) (t : ℚ) : calculate_skill_match cskills d t ≤ 1 := by
  simp only [calculate_skill_match]
  split
  · norm_num
  · exact min_le_left _ _

/-- The skill score is nonnegative for well-formed data. -/
theorem calculate_skill_match_nonneg (cskills : List ConsultantSkill)
    (d : List JobSkillInfo) (t : ℚ)
    (hl : ∀ cs ∈ cskills, 0 ≤ orQ cs.level 3)
    (hi : ∀ e ∈ d, 0 ≤ e.importance) (ht : 0 ≤ t) :
    0 ≤ calculate_skill_match cskills d t := by
  have hraw := rawSkillScore_nonneg cskills d t hl hi ht
  simp only [calculate_skill_match]
  split
  · norm_num
  · split
    · exact le_min (by norm_num) (le_max_left 0 _)
    · exact le_min (by norm_num) hraw

/-- The experience score never exceeds 1. -/
theorem calculate_experience_match_le_one (cskills : List ConsultantSkill) :
    calculate_experience_match cskills ≤ 1 := by
  unfold calculate_experience_match
  split
  · norm_num
  · exact min_le_left _ _

/-- Counted years values are stored column values. -/
theorem mem_truthyYears {cskills : List ConsultantSkill} {y : ℚ}
    (h : y ∈ truthyYears cskills) :
    ∃ cs ∈ cskills, cs.years_experience = some y := by
  unfold truthyYears at h
  rw [List.mem_filterMap] at h
  obtain ⟨cs, hcs, hf⟩ := h
  cases hy : cs.years_experience with
  | none => rw [hy] at hf; simp at hf
  | some y0 =>
    rw [hy] at hf
    by_cases h0 : y0 = 0
    · simp [h0] at hf
    · simp only [h0, if_false, if_neg h0, Option.some.injEq] at hf
      exact ⟨cs, hcs, by rw [hy, hf]⟩

/-- The average of the counted years values is nonnegative when the stored
values are. -/
theorem avgYears_nonneg (cskills : List ConsultantSkill)
    (hy : ∀ cs ∈ cskills, 0 ≤ cs.years_experience.getD 0) :
    0 ≤ avgYears cskills := by
  unfold avgYears
  apply div_nonneg
  · apply List.sum_nonneg
    intro y hmem
    rcases mem_truthyYears hmem with ⟨cs, hcs, hcy⟩
    have := hy cs hcs
    rwa [hcy, Option.getD_some] at this
  · exact Nat.cast_nonneg _

/-- The experience score is nonnegative when the stored years values are. -/
theorem calculate_experience_match_nonneg (cskills : List ConsultantSkill)
    (hy : ∀ cs ∈ cskills, 0 ≤ cs.years_experience.getD 0) :
    0 ≤ calculate_experience_match cskills := by
  unfold calculate_experience_match
  split
  · norm_num
  · have havg : (0:ℝ) ≤ (avgYears cskills : ℝ) := by
      exact_mod_cast avgYears_nonneg cskills hy
    refine le_min (by norm_num) (div_nonneg ?_ ?_)
    · exact Real.logb_nonneg (by norm_num) (by linarith)
    · exact (Real.logb_pos (by norm_num) (by norm_num)).le

/-- The rate score lies in [0, 1] when the stored rate columns are
nonnegative. -/
theorem calculate_rate_match_mem (hr lo hi : Option ℚ)
    (h1 : 0 ≤ hr.getD 0) (h2 : 0 ≤ lo.getD 0) (h3 : 0 ≤ hi.getD 0) :
    0 ≤ calculate_rate_match hr lo hi ∧ calculate_rate_match hr lo hi ≤ 1 := by
  unfold calculate_rate_match
  split
  · norm_num
  · rename_i htr
    rcases hr with _ | r <;> rcases lo with _ | l <;> rcases hi with _ | h <;>
      simp [truthyQ] at htr
    have hrne : r ≠ 0 := by tauto
    have hlne : l ≠ 0 := by tauto
    have hhne : h ≠ 0 := by tauto
    simp only [Option.getD_some] at h1 h2 h3 ⊢
    have hlpos : 0 < l := lt_of_le_of_ne h2 (Ne.symm hlne)
    have hhpos : 0 < h := lt_of_le_of_ne h3 (Ne.symm hhne)
    split
    · norm_num
    · rename_i hin
      split
      · rename_i hbelow
        constructor
        · exact le_max_left 0 _
        · have : 0 ≤ (l - r) / l := div_nonneg (by linarith) hlpos.le
          rw [max_le_iff]
          constructor <;> linarith
      · rename_i hnotbelow
        have hge : l ≤ r := not_lt.mp hnotbelow
        have habove : h < r := by
          by_contra hcon
          exact hin ⟨hge, not_lt.mp hcon⟩
        constructor
        · exact le_max_left 0 _
        · have : 0 ≤ (r - h) / h := div_nonneg (by linarith) hhpos.le
          rw [max_le_iff]
          constructor <;> linarith

/-- The location score always lies in [0, 1]. -/
theorem calculate_location_match_mem (cl : Option (List Char)) (jl : List Char) :
    0 ≤ calculate_location_match cl jl ∧ calculate_location_match cl jl ≤ 1 := by
  simp only [calculate_location_match]
  constructor <;> (split_ifs <;> norm_num)

/-- Claim C1, confirmed under the data-model constraints of spec section 3
(nonnegative weight vector summing to 1; nonnegative stored levels, years,
importances and rates): for every consultant/job pair scored by the engine,
the persisted `total_score` equals 100 times the weight-vector-weighted sum of
the four component scores, and it always lies in [0, 100]. -/
theorem C1_total_score (c : Consultant) (job : Job) (w : MatchingWeights) (now : ℚ)
    (hw1 : 0 ≤ w.skill_weight) (hw2 : 0 ≤ w.experience_weight)
    (hw3 : 0 ≤ w.rate_weight) (hw4 : 0 ≤ w.location_weight)
    (hwsum : weightsSum w = 1)
    (hlvl : ∀ cs ∈ c.skills, 0 ≤ orQ cs.level 3)
    (hyrs : ∀ cs ∈ c.skills, 0 ≤ cs.years_experience.getD 0)
    (himp : ∀ js ∈ job.required_skills, 0 ≤ orQ js.importance 3)
    (hr : 0 ≤ c.hourly_rate.getD 0)
    (hlo : 0 ≤ job.rate_min.getD 0)
    (hhi : 0 ≤ job.rate_max.getD 0) :
    (matchRowFor c job w now).total_score
        = 100 * ((calculate_skill_match c.skills (buildJobSkillsDict job.required_skills)
              (totalImportance job.required_skills) : ℝ) * (w.skill_weight : ℝ)
            + calculate_experience_match c.skills * (w.experience_weight : ℝ)
            + (calculate_rate_match c.hourly_rate job.rate_min job.rate_max : ℝ)
              * (w.rate_weight : ℝ)
            + (calculate_location_match c.location ((job.location.map pyLower).getD []) : ℝ)
              * (w.location_weight : ℝ))
      ∧ 0 ≤ (matchRowFor c job w now).total_score
      ∧ (matchRowFor c job w now).total_score ≤ 100 := by
  have hs1 := calculate_skill_match_nonneg c.skills (buildJobSkillsDict job.required_skills)
    (totalImportance job.required_skills) hlvl
    (buildJobSkillsDict_importance_nonneg job.required_skills himp)
    (totalImportance_nonneg job.required_skills himp)
  have hs1u := calculate_skill_match_le_one c.skills (buildJobSkillsDict job.required_skills)
    (totalImportance job.required_skills)
  have hs2 := calculate_experience_match_nonneg c.skills hyrs
  have hs2u := calculate_experience_match_le_one c.skills
  have hs3 := calculate_rate_match_mem c.hourly_rate job.rate_min job.rate_max hr hlo hhi
  have hs4 := calculate_location_match_mem c.location ((job.location.map pyLower).getD [])
  have heq : (matchRowFor c job w now).total_score
      = 100 * ((calculate_skill_match c.skills (buildJobSkillsDict job.required_skills)
            (totalImportance job.required_skills) : ℝ) * (w.skill_weight : ℝ)
          + calculate_experience_match c.skills * (w.experience_weight : ℝ)
          + (calculate_rate_match c.hourly_rate job.rate_min job.rate_max : ℝ)
            * (w.rate_weight : ℝ)
          + (calculate_location_match c.location ((job.location.map pyLower).getD []) : ℝ)
            * (w.location_weight : ℝ)) := by
    simp only [matchRowFor]
    ring
  have hq1l : (0:ℝ) ≤ (calculate_skill_match c.skills (buildJobSkillsDict job.required_skills)
      (totalImportance job.required_skills) : ℝ) := by exact_mod_cast hs1
  have hq1u : (calculate_skill_match c.skills (buildJobSkillsDict job.required_skills)
      (totalImportance job.required_skills) : ℝ) ≤ 1 := by exact_mod_cast hs1u
  have hq3l : (0:ℝ) ≤ (calculate_rate_match c.hourly_rate job.rate_min job.rate_max : ℝ) := by
    exact_mod_cast hs3.1
  have hq3u : (calculate_rate_match c.hourly_rate job.rate_min job.rate_max : ℝ) ≤ 1 := by
    exact_mod_cast hs3.2
  have hq4l : (0:ℝ) ≤ (calculate_location_match c.location
      ((job.location.map pyLower).getD []) : ℝ) := by exact_mod_cast hs4.1
  have hq4u : (calculate_location_match c.location
      ((job.location.map pyLower).getD []) : ℝ) ≤ 1 := by exact_mod_cast hs4.2
  have hw1r : (0:ℝ) ≤ (w.skill_weight : ℝ) := by exact_mod_cast hw1
  have hw2r : (0:ℝ) ≤ (w.experience_weight : ℝ) := by exact_mod_cast hw2
  have hw3r : (0:ℝ) ≤ (w.rate_weight : ℝ) := by exact_mod_cast hw3
  have hw4r : (0:ℝ) ≤ (w.location_weight : ℝ) := by exact_mod_cast hw4
  have hwsr : (w.skill_weight : ℝ) + (w.experience_weight : ℝ) + (w.rate_weight : ℝ)
      + (w.location_weight : ℝ) = 1 := by
    have h2 : ((weightsSum w : ℚ) : ℝ) = ((1 : ℚ) : ℝ) := by rw [hwsum]
    unfold weightsSum at h2
    push_cast at h2
    linarith
  refine ⟨heq, ?_, ?_⟩
  · rw [heq]
    have t1 := mul_nonneg hq1l hw1r
    have t2 := mul_nonneg hs2 hw2r
    have t3 := mul_nonneg hq3l hw3r
    have t4 := mul_nonneg hq4l hw4r
    linarith
  · rw [heq]
    have t1 : (calculate_skill_match c.skills (buildJobSkillsDict job.required_skills)
        (totalImportance job.required_skills) : ℝ) * (w.skill_weight : ℝ)
        ≤ (w.skill_weight : ℝ) := mul_le_of_le_one_left hw1r hq1u
    have t2 : calculate_experience_match c.skills * (w.experience_weight : ℝ)
        ≤ (w.experience_weight : ℝ) := mul_le_of_le_one_left hw2r hs2u
    have t3 : (calculate_rate_match c.hourly_rate job.rate_min job.rate_max : ℝ)
        * (w.rate_weight : ℝ) ≤ (w.rate_weight : ℝ) := mul_le_of_le_one_left hw3r hq3u
    have t4 : (calculate_location_match c.location ((job.location.map pyLower).getD []) : ℝ)
        * (w.location_weight : ℝ) ≤ (w.location_weight : ℝ) := mul_le_of_le_one_left hw4r hq4u
    linarith

/-- Witness for C1: a concrete consultant and job with the default global
weights. -/
theorem C1_total_score_witness :
    weightsSum defaultGlobalWeights = 1
      ∧ 0 ≤ (matchRowFor ⟨1, "active", some 100, none, [⟨1, some 5, some 4⟩]⟩
            ⟨2, none, "open", none, some 90, some 110, [⟨1, true, some 5⟩]⟩
            defaultGlobalWeights 0).total_score
      ∧ (matchRowFor ⟨1, "active", some 100, none, [⟨1, some 5, some 4⟩]⟩
            ⟨2, none, "open", none, some 90, some 110, [⟨1, true, some 5⟩]⟩
            defaultGlobalWeights 0).total_score ≤ 100 := by
  have h := C1_total_score ⟨1, "active", some 100, none, [⟨1, some 5, some 4⟩]⟩
    ⟨2, none, "open", none, some 90, some 110, [⟨1, true, some 5⟩]⟩ defaultGlobalWeights 0
    (by norm_num [defaultGlobalWeights]) (by norm_num [defaultGlobalWeights])
    (by norm_num [defaultGlobalWeights]) (by norm_num [defaultGlobalWeights])
    (by norm_num [weightsSum, defaultGlobalWeights])
    (by intro cs hcs; simp at hcs; subst hcs; norm_num [orQ])
    (by intro cs hcs; simp at hcs; subst hcs; norm_num)
    (by intro js hjs; simp at hjs; subst hjs; norm_num [orQ])
    (by norm_num) (by norm_num) (by norm_num)
  exact ⟨by norm_num [weightsSum, defaultGlobalWeights], h.2.1, h.2.2⟩

/-- Appending consultant skills adds their raw contributions. -/
theorem rawSkillScore_append (a b : List ConsultantSkill) (d : List JobSkillInfo) (t : ℚ) :
    rawSkillScore (a ++ b) d t = rawSkillScore a d t + rawSkillScore b d t := by
  simp [rawSkillScore]

/-- Claim C3, confirmed: whenever at least one required job skill `sid` is
absent from the consultant — no matter how many further required skills are
also missing — the skill score is the raw sum penalized by a flat 0.3 exactly
once: the closed form `min 1 (max 0 (raw - 0.3))` contains a single
subtraction, independent of the number of missing required skills, floored at
0 and clamped to 1.  Adding `sid` never lowers the raw score (so, before the
floor, the penalized consultant is at least 0.3 below the raw score of the
otherwise-identical consultant holding `sid`), and when `sid` was the only
missing required skill that consultant is not penalized at all: their score is
`min 1 raw` with no subtraction. -/
theorem C3_skill_penalty (cskills : List ConsultantSkill) (d : List JobSkillInfo)
    (t : ℚ) (sid : Nat) (lvl yrs : Option ℚ)
    (hmem : ∃ e ∈ d, e.skill_id = sid ∧ e.required = true)
    (hnotin : ∀ cs ∈ cskills, cs.skill_id ≠ sid)
    (himp : ∀ e ∈ d, 0 ≤ e.importance) (ht : 0 ≤ t) (hlvl : 0 ≤ orQ lvl 3) :
    calculate_skill_match cskills d t
        = min 1 (max 0 (rawSkillScore cskills d t - 3/10))
      ∧ rawSkillScore cskills d t - 3/10
          ≤ rawSkillScore (cskills ++ [(⟨sid, lvl, yrs⟩ : ConsultantSkill)]) d t - 3/10
      ∧ ((∀ e ∈ d, e.required = true →
            e.skill_id = sid ∨ ∃ cs ∈ cskills, cs.skill_id = e.skill_id) →
          calculate_skill_match (cskills ++ [(⟨sid, lvl, yrs⟩ : ConsultantSkill)]) d t
            = min 1 (rawSkillScore (cskills ++ [(⟨sid, lvl, yrs⟩ : ConsultantSkill)]) d t)) := by
  obtain ⟨e0, he0, hsid0, hreq0⟩ := hmem
  have hdne : d.isEmpty = false := by
    cases d with
    | nil => exact absurd he0 (List.not_mem_nil _)
    | cons _ _ => rfl
  have hcsany : (cskills.any (fun cs => cs.skill_id == sid)) = false := by
    rw [List.any_eq_false]
    intro cs hcs
    simpa using hnotin cs hcs
  have hmiss : (d.any (fun e =>
      e.required && !(cskills.any (fun cs => cs.skill_id == e.skill_id)))) = true := by
    rw [List.any_eq_true]
    refine ⟨e0, he0, ?_⟩
    rw [hsid0, hreq0, hcsany]
    rfl
  have hterm : 0 ≤ rawSkillScore [(⟨sid, lvl, yrs⟩ : ConsultantSkill)] d t := by
    simp only [rawSkillScore, List.map_cons, List.map_nil, List.sum_cons, List.sum_nil, add_zero]
    cases hfind : d.find? (fun e => e.skill_id == sid) with
    | none => simp
    | some e =>
      simpa using mul_nonneg (div_nonneg hlvl (by norm_num))
        (div_nonneg (himp e (List.mem_of_find?_eq_some hfind)) ht)
  have happ := rawSkillScore_append cskills [(⟨sid, lvl, yrs⟩ : ConsultantSkill)] d t
  refine ⟨?_, by rw [happ]; linarith, ?_⟩
  · simp only [calculate_skill_match, hdne, Bool.false_eq_true, if_false, hmiss, if_true]
  · intro hothers
    have hnomiss : (d.any (fun e => e.required
        && !((cskills ++ [(⟨sid, lvl, yrs⟩ : ConsultantSkill)]).any
          (fun cs => cs.skill_id == e.skill_id)))) = false := by
      rw [List.any_eq_false]
      intro e he
      by_cases hereq : e.required = true
      · rcases hothers e he hereq with h | ⟨cs, hcs, hcsid⟩
        · have hany : ((cskills ++ [(⟨sid, lvl, yrs⟩ : ConsultantSkill)]).any
              (fun cs => cs.skill_id == e.skill_id)) = true := by
            rw [List.any_eq_true]
            refine ⟨(⟨sid, lvl, yrs⟩ : ConsultantSkill),
              List.mem_append_right _ (by simp), by simp [h]⟩
          simp [hany]
        · have hany : ((cskills ++ [(⟨sid, lvl, yrs⟩ : ConsultantSkill)]).any
              (fun cs => cs.skill_id == e.skill_id)) = true := by
            rw [List.any_eq_true]
            exact ⟨cs, List.mem_append_left _ hcs, by simp [hcsid]⟩
          simp [hany]
      · simp [hereq]
    simp only [calculate_skill_match, hdne, Bool.false_eq_true, if_false, hnomiss,
      Bool.true_eq_false, if_false]

/-- Witness for C3, exercising the multiple-missing case: the job requires
skills 1 and 3 (importances 5 and 4) and lists skill 2 (importance 2,
optional); the consultant holds only skill 2, so two required skills are
missing at once, and the score is still penalized by exactly one flat 0.3. -/
theorem C3_skill_penalty_witness :
    (∃ e ∈ [(⟨1, true, 5⟩ : JobSkillInfo), ⟨3, true, 4⟩, ⟨2, false, 2⟩],
        e.skill_id = 1 ∧ e.required = true)
      ∧ calculate_skill_match [⟨2, some 4, none⟩]
            [(⟨1, true, 5⟩ : JobSkillInfo), ⟨3, true, 4⟩, ⟨2, false, 2⟩] 11
          = min 1 (max 0 (rawSkillScore [⟨2, some 4, none⟩]
              [(⟨1, true, 5⟩ : JobSkillInfo), ⟨3, true, 4⟩, ⟨2, false, 2⟩] 11 - 3/10))
      ∧ rawSkillScore [⟨2, some 4, none⟩]
            [(⟨1, true, 5⟩ : JobSkillInfo), ⟨3, true, 4⟩, ⟨2, false, 2⟩] 11 - 3/10
          ≤ rawSkillScore ([⟨2, some 4, none⟩] ++ [(⟨1, some 5, none⟩ : ConsultantSkill)])
            [(⟨1, true, 5⟩ : JobSkillInfo), ⟨3, true, 4⟩, ⟨2, false, 2⟩] 11 - 3/10 := by
  have h := C3_skill_penalty [⟨2, some 4, none⟩]
    [(⟨1, true, 5⟩ : JobSkillInfo), ⟨3, true, 4⟩, ⟨2, false, 2⟩] 11 1 (some 5) none
    ⟨(⟨1, true, 5⟩ : JobSkillInfo), by simp, by simp, by simp⟩
    (by intro cs hcs; simp at hcs; subst hcs; simp)
    (by intro e he; simp at he; rcases he with rfl | rfl | rfl <;> norm_num)
    (by norm_num) (by norm_num [orQ])
  exact ⟨⟨(⟨1, true, 5⟩ : JobSkillInfo), by simp, by simp, by simp⟩, h.1, h.2.1⟩

/-- Claim C2, counterexample: updating all four weights to 0 makes the
post-update total 0, the `if total > 0` guard skips normalization, and the
call still returns a success result with a stored sum of 0, not 1. -/
theorem C2_counterexample :
    (update_matching_weights defaultGlobalWeights
        ⟨some (.valid 0), some (.valid 0), some (.valid 0), some (.valid 0)⟩).1.isSuccess = true
      ∧ weightsSum (update_matching_weights defaultGlobalWeights
          ⟨some (.valid 0), some (.valid 0), some (.valid 0), some (.valid 0)⟩).2 ≠ 1 := by
  have happly : applyWeightUpdates defaultGlobalWeights
      ⟨some (.valid 0), some (.valid 0), some (.valid 0), some (.valid 0)⟩
      = .ok ⟨0, 0, 0, 0⟩ := rfl
  have hneg : ¬((0:ℚ) < weightsSum ⟨0, 0, 0, 0⟩) := by norm_num [weightsSum]
  have hres : update_matching_weights defaultGlobalWeights
      ⟨some (.valid 0), some (.valid 0), some (.valid 0), some (.valid 0)⟩
      = (.success ⟨0, 0, 0, 0⟩, ⟨0, 0, 0, 0⟩) := by
    unfold update_matching_weights
    rw [happly]
    simp only [normalizeWeights, if_neg hneg]
  rw [hres]
  exact ⟨rfl, by norm_num [weightsSum]⟩

/-- Claim C2 as amended: whenever the four weights after applying the update
have a strictly positive sum, a success result is returned and the stored
weights are normalized to sum to exactly 1; a nonpositive post-update total is
stored unnormalized (still with a success result). -/
theorem C2_weights_normalized_amended (current : MatchingWeights) (d : WeightsUpdateData)
    (w : MatchingWeights) (happly : applyWeightUpdates current d = .ok w)
    (hpos : 0 < weightsSum w) :
    (update_matching_weights current d).1 = .success (normalizeWeights w)
      ∧ weightsSum (update_matching_weights current d).2 = 1 := by
  have ht : weightsSum w ≠ 0 := ne_of_gt hpos
  have hres : update_matching_weights current d
      = (.success (normalizeWeights w), normalizeWeights w) := by
    unfold update_matching_weights
    rw [happly]
  have hsum : weightsSum (normalizeWeights w) = 1 := by
    simp only [normalizeWeights]
    rw [if_pos hpos]
    show w.skill_weight / weightsSum w + w.experience_weight / weightsSum w
        + w.rate_weight / weightsSum w + w.location_weight / weightsSum w = 1
    rw [div_add_div_same, div_add_div_same, div_add_div_same]
    exact div_self ht
  rw [hres]
  exact ⟨rfl, hsum⟩

/-- Witness for C2 (the scenario of spec section 8): update skill to 2,
experience to 1, rate to 1, location omitted. -/
theorem C2_weights_normalized_amended_witness :
    applyWeightUpdates defaultGlobalWeights
        ⟨some (.valid 2), some (.valid 1), some (.valid 1), none⟩
      = .ok ⟨2, 1, 1, 1/10⟩
    ∧ (0:ℚ) < weightsSum ⟨2, 1, 1, 1/10⟩
    ∧ weightsSum (update_matching_weights defaultGlobalWeights
        ⟨some (.valid 2), some (.valid 1), some (.valid 1), none⟩).2 = 1 := by
  have happly : applyWeightUpdates defaultGlobalWeights
      ⟨some (.valid 2), some (.valid 1), some (.valid 1), none⟩
      = .ok ⟨2, 1, 1, 1/10⟩ := rfl
  have hpos : (0:ℚ) < weightsSum ⟨2, 1, 1, 1/10⟩ := by norm_num [weightsSum]
  exact ⟨happly, hpos,
    (C2_weights_normalized_amended defaultGlobalWeights
      ⟨some (.valid 2), some (.valid 1), some (.valid 1), none⟩
      ⟨2, 1, 1, 1/10⟩ happly hpos).2⟩

/-- Claim C8, counterexample: a negative weight value parses fine in
`float(...)`, no validation rejects it, and the update succeeds and changes
the stored vector (here to skill weight -1, with the skipped normalization of
the then nonpositive total). -/
theorem C8_counterexample :
    (update_matching_weights defaultGlobalWeights
        ⟨some (.valid (-1)), none, none, none⟩).1.isSuccess = true
      ∧ (update_matching_weights defaultGlobalWeights
          ⟨some (.valid (-1)), none, none, none⟩).2 ≠ defaultGlobalWeights := by
  have happly : applyWeightUpdates defaultGlobalWeights
      ⟨some (.valid (-1)), none, none, none⟩
      = .ok ⟨-1, 1/5, 1/5, 1/10⟩ := rfl
  have hneg : ¬((0:ℚ) < weightsSum ⟨-1, 1/5, 1/5, 1/10⟩) := by norm_num [weightsSum]
  have hres : update_matching_weights defaultGlobalWeights
      ⟨some (.valid (-1)), none, none, none⟩
      = (.success ⟨-1, 1/5, 1/5, 1/10⟩, ⟨-1, 1/5, 1/5, 1/10⟩) := by
    unfold update_matching_weights
    rw [happly]
    simp only [normalizeWeights, if_neg hneg]
  rw [hres]
  refine ⟨rfl, fun hcon => ?_⟩
  have := congrArg MatchingWeights.skill_weight hcon
  norm_num [defaultGlobalWeights] at this

/-- Claim C8 as amended: a non-numeric weight value raises inside `float(...)`
and is reported as an error result with the stored vector unchanged (the
session is rolled back); negative values, however, are accepted without
validation. -/
theorem C8_invalid_rejected_amended (current : MatchingWeights) (d : WeightsUpdateData)
    (h : d.skill_weight = some .invalid ∨ d.experience_weight = some .invalid
      ∨ d.rate_weight = some .invalid ∨ d.location_weight = some .invalid) :
    (update_matching_weights current d).1.isError = true
      ∧ (update_matching_weights current d).2 = current := by
  obtain ⟨s, e, r, l⟩ := d
  rcases s with _ | (q1 | _) <;> rcases e with _ | (q2 | _) <;>
    rcases r with _ | (q3 | _) <;> rcases l with _ | (q4 | _) <;>
    simp_all [update_matching_weights, applyWeightUpdates, pyFloatField, PyResult.isError]

/-- Witness for C8: a non-numeric experience weight is rejected and the
stored default vector is unchanged. -/
theorem C8_invalid_rejected_amended_witness :
    ((⟨none, some .invalid, none, none⟩ : WeightsUpdateData).skill_weight = some .invalid
        ∨ (⟨none, some .invalid, none, none⟩ : WeightsUpdateData).experience_weight
            = some .invalid
        ∨ (⟨none, some .invalid, none, none⟩ : WeightsUpdateData).rate_weight = some .invalid
        ∨ (⟨none, some .invalid, none, none⟩ : WeightsUpdateData).location_weight
            = some .invalid)
      ∧ (update_matching_weights defaultGlobalWeights
          ⟨none, some .invalid, none, none⟩).2 = defaultGlobalWeights :=
  ⟨Or.inr (Or.inl rfl),
    (C8_invalid_rejected_amended defaultGlobalWeights ⟨none, some .invalid, none, none⟩
      (Or.inr (Or.inl rfl))).2⟩

/-- The key-pair test in propositional form. -/
theorem rowHasPair_iff {x : MatchRow} {cid jid : Nat} :
    rowHasPair x cid jid = true ↔ x.consultant_id = cid ∧ x.job_id = jid := by
  simp [rowHasPair]

/-- Membership after an in-place update: an element is an old row, or the new
row standing in for an old row with the same key pair. -/
theorem mem_updateFirstRow {rows : List MatchRow} {r b : MatchRow}
    (h : b ∈ updateFirstRow rows r) :
    b ∈ rows ∨ (b = r ∧ ∃ y ∈ rows, rowHasPair y r.consultant_id r.job_id = true) := by
  induction rows with
  | nil => simp [updateFirstRow] at h
  | cons x xs ih =>
    rw [updateFirstRow] at h
    by_cases hx : rowHasPair x r.consultant_id r.job_id = true
    · rw [if_pos hx] at h
      rcases List.mem_cons.mp h with rfl | hmem
      · exact Or.inr ⟨rfl, x, List.mem_cons_self _ _, hx⟩
      · exact Or.inl (List.mem_cons_of_mem _ hmem)
    · rw [if_neg hx] at h
      rcases List.mem_cons.mp h with rfl | hmem
      · exact Or.inl (List.mem_cons_self _ _)
      · rcases ih hmem with h2 | ⟨rfl, y, hy, hky⟩
        · exact Or.inl (List.mem_cons_of_mem _ h2)
        · exact Or.inr ⟨rfl, y, List.mem_cons_of_mem _ hy, hky⟩

/-- Updating the first row with a given key pair preserves pair uniqueness. -/
theorem PairUnique_updateFirstRow {rows : List MatchRow} {r : MatchRow}
    (h : PairUnique rows) : PairUnique (updateFirstRow rows r) := by
  unfold PairUnique at h ⊢
  induction rows with
  | nil => exact h
  | cons x xs ih =>
    rw [updateFirstRow]
    rcases List.pairwise_cons.mp h with ⟨hx, hxs⟩
    by_cases hk : rowHasPair x r.consultant_id r.job_id = true
    · rw [if_pos hk]
      refine List.pairwise_cons.mpr ⟨?_, hxs⟩
      intro b hb
      have hkey := rowHasPair_iff.mp hk
      rcases hx b hb with h1 | h1
      · exact Or.inl (fun he => h1 (hkey.1.trans he))
      · exact Or.inr (fun he => h1 (hkey.2.trans he))
    · rw [if_neg hk]
      refine List.pairwise_cons.mpr ⟨?_, ih hxs⟩
      intro b hb
      rcases mem_updateFirstRow hb with hmem | ⟨rfl, y, hy, hky⟩
      · exact hx b hmem
      · have hkey := rowHasPair_iff.mp hky
        rcases hx y hy with h1 | h1
        · exact Or.inl (fun he => h1 (he.trans hkey.1.symm))
        · exact Or.inr (fun he => h1 (he.trans hkey.2.symm))

/-- The update-or-insert of one row preserves pair uniqueness. -/
theorem PairUnique_upsertMatchRow {rows : List MatchRow} {r : MatchRow}
    (h : PairUnique rows) : PairUnique (upsertMatchRow rows r) := by
  unfold upsertMatchRow
  split
  · exact PairUnique_updateFirstRow h
  · rename_i hany
    unfold PairUnique at h ⊢
    refine List.pairwise_append.mpr ⟨h, List.pairwise_singleton _ _, ?_⟩
    intro a ha b hb
    rw [List.mem_singleton] at hb
    subst hb
    have hnk : ¬(rowHasPair a b.consultant_id b.job_id = true) := by
      intro hc
      exact hany (List.any_eq_true.mpr ⟨a, ha, hc⟩)
    rw [rowHasPair_iff] at hnk
    by_cases hc : a.consultant_id = b.consultant_id
    · exact Or.inr (fun hj => hnk ⟨hc, hj⟩)
    · exact Or.inl hc

/-- A fold of upserts preserves pair uniqueness. -/
theorem PairUnique_foldl_upsert {α : Type} (rows : List MatchRow) (f : α → MatchRow)
    (l : List α) (h : PairUnique rows) :
    PairUnique (l.foldl (fun acc x => upsertMatchRow acc (f x)) rows) := by
  induction l generalizing rows with
  | nil => simpa using h
  | cons x xs ih =>
    simp only [List.foldl_cons]
    exact ih _ (PairUnique_upsertMatchRow h)

/-- `_calculate_matches_for_job` preserves pair uniqueness. -/
theorem PairUnique_calculate_matches_for_job (tz fails : Bool) (db : MatchDB) (job : Job)
    (w : MatchingWeights) (now : ℚ) (h : PairUnique db.scores) :
    PairUnique ((calculate_matches_for_job tz fails db job w now).2.scores) := by
  by_cases hc : (fails || (!tz && (activeConsultants db).any
      (fun c => db.scores.any (fun x => rowHasPair x c.id job.id)))) = true
  · simp only [calculate_matches_for_job, if_pos hc]
    exact h
  · simp only [calculate_matches_for_job, if_neg hc]
    exact PairUnique_foldl_upsert db.scores _ _ h

/-- `_calculate_matches_for_consultant` preserves pair uniqueness. -/
theorem PairUnique_calculate_matches_for_consultant (tz fails : Bool)
    (global : MatchingWeights) (db : MatchDB) (c : Consultant) (now : ℚ)
    (h : PairUnique db.scores) :
    PairUnique ((calculate_matches_for_consultant tz fails global db c now).2.scores) := by
  by_cases hc : (fails || (!tz && (openJobs db).any
      (fun j => db.scores.any (fun x => rowHasPair x c.id j.id)))) = true
  · simp only [calculate_matches_for_consultant, if_pos hc]
    exact h
  · simp only [calculate_matches_for_consultant, if_neg hc]
    exact PairUnique_foldl_upsert db.scores _ _ h

/-- `find_matches_for_job` preserves pair uniqueness of the stored rows. -/
theorem PairUnique_find_matches_for_job (tz fails : Bool) (global : MatchingWeights)
    (db : MatchDB) (now : ℚ) (job_id limit : Nat) (min_score : ℝ) (recalculate : Bool)
    (h : PairUnique db.scores) :
    PairUnique ((find_matches_for_job tz fails global db now
      job_id limit min_score recalculate).2.scores) := by
  unfold find_matches_for_job
  cases hfind : db.jobs.find? (fun j => j.id == job_id) with
  | none => simpa using h
  | some job =>
    simp only
    split
    · exact h
    · split
      · exact PairUnique_calculate_matches_for_job _ _ _ _ _ _ h
      · exact h

/-- `find_jobs_for_consultant` preserves pair uniqueness of the stored rows. -/
theorem PairUnique_find_jobs_for_consultant (tz fails : Bool) (global : MatchingWeights)
    (db : MatchDB) (now : ℚ) (consultant_id limit : Nat) (min_score : ℝ)
    (recalculate : Bool) (h : PairUnique db.scores) :
    PairUnique ((find_jobs_for_consultant tz fails global db now
      consultant_id limit min_score recalculate).2.scores) := by
  unfold find_jobs_for_consultant
  cases hfind : db.consultants.find? (fun c => c.id == consultant_id) with
  | none => simpa using h
  | some c =>
    simp only
    split
    · exact h
    · split
      · exact PairUnique_calculate_matches_for_consultant _ _ _ _ _ _ h
      · exact h

/-- `recalculate_all_matches` preserves pair uniqueness of the stored rows. -/
theorem PairUnique_recalculate_all_matches (tz fails : Bool) (global : MatchingWeights)
    (db : MatchDB) (now : ℚ) (h : PairUnique db.scores) :
    PairUnique ((recalculate_all_matches tz fails global db now).2.scores) := by
  have H : ∀ (jobs : List Job) (acc : Nat × MatchDB), PairUnique acc.2.scores →
      PairUnique ((jobs.foldl (fun acc j =>
        (acc.1 + (calculate_matches_for_job tz fails acc.2 j
            (weightsForClient acc.2 global j.client_id) now).1,
          (calculate_matches_for_job tz fails acc.2 j
            (weightsForClient acc.2 global j.client_id) now).2)) acc).2.scores) := by
    intro jobs
    induction jobs with
    | nil => intro acc hacc; simpa using hacc
    | cons j js ih =>
      intro acc hacc
      simp only [List.foldl_cons]
      exact ih _ (PairUnique_calculate_matches_for_job _ _ _ _ _ _ hacc)
  unfold recalculate_all_matches
  exact H (openJobs db) (0, db) h

/-- Claim C7, confirmed: starting from a pair-unique score table, any sequence
of recomputations through the three public entry points leaves at most one
`MatchScore` row per (consultant, job) pair — recomputation updates the
matching row in place and insertion happens only for pairs with no row. -/
theorem C7_pair_uniqueness (db : MatchDB) (ops : List MatchingOp)
    (h : PairUnique db.scores) :
    PairUnique ((ops.foldl applyMatchingOp db).scores) := by
  induction ops generalizing db with
  | nil => simpa using h
  | cons op rest ih =>
    simp only [List.foldl_cons]
    refine ih _ ?_
    cases op with
    | forJob tz fails global now job_id limit min_score recalculate =>
      exact PairUnique_find_matches_for_job tz fails global db now
        job_id limit min_score recalculate h
    | forConsultant tz fails global now consultant_id limit min_score recalculate =>
      exact PairUnique_find_jobs_for_consultant tz fails global db now
        consultant_id limit min_score recalculate h
    | recalcAll tz fails global now =>
      exact PairUnique_recalculate_all_matches tz fails global db now h

/-- Witness for C7: one full recomputation pass on a one-job, one-consultant
database starting from an empty score table. -/
theorem C7_pair_uniqueness_witness :
    PairUnique (MatchDB.mk [⟨1, none, "open", none, none, none, []⟩]
        [⟨2, "active", none, none, []⟩] [] [] []).scores
      ∧ PairUnique ((List.foldl applyMatchingOp
          (MatchDB.mk [⟨1, none, "open", none, none, none, []⟩]
            [⟨2, "active", none, none, []⟩] [] [] [])
          [.recalcAll true false defaultGlobalWeights 0]).scores) :=
  ⟨List.Pairwise.nil,
    C7_pair_uniqueness _ [.recalcAll true false defaultGlobalWeights 0] List.Pairwise.nil⟩

/-- Claim C10, confirmed: line 9 imports only `datetime` and `timedelta`, so
the unconditional `datetime.now(timezone.utc)` at lines 59, 159 and 357
raises a `NameError` inside each `try` block; every call of the three
operations resolves to its generic exception handler and returns a status
`error` result, never a success payload. -/
theorem C10_always_error (fails : Bool) (global : MatchingWeights) (db : MatchDB)
    (now : ℚ) (job_id consultant_id limit : Nat) (min_score : ℝ) (recalculate : Bool) :
    (find_matches_for_job timezoneInScope fails global db now
        job_id limit min_score recalculate).1.isError = true
      ∧ (find_jobs_for_consultant timezoneInScope fails global db now
          consultant_id limit min_score recalculate).1.isError = true
      ∧ (get_matching_statistics timezoneInScope db now).isError = true := by
  have htz : timezoneInScope = false := rfl
  refine ⟨?_, ?_, ?_⟩
  · cases hfind : db.jobs.find? (fun j => j.id == job_id) with
    | none => simp [find_matches_for_job, hfind, PyResult.isError]
    | some job => simp [find_matches_for_job, hfind, htz, PyResult.isError]
  · cases hfind : db.consultants.find? (fun c => c.id == consultant_id) with
    | none => simp [find_jobs_for_consultant, hfind, PyResult.isError]
    | some c => simp [find_jobs_for_consultant, hfind, htz, PyResult.isError]
  · simp [get_matching_statistics, htz, PyResult.isError]

/-- Claim C9, counterexample: with `timezone` in scope (as the claim's premise
presumes, since otherwise the recomputation is never reached) and the storage
raising during the inline recomputation triggered by a job with no score rows
yet, `_calculate_matches_for_job` swallows the exception (rolls back, returns
0) and `find_matches_for_job` proceeds to a success result over the
pre-existing (here: empty) rows — not the status `error` result the claim
requires. -/
theorem C9_counterexample :
    (find_matches_for_job true true defaultGlobalWeights
        (MatchDB.mk [⟨1, none, "open", none, none, none, []⟩]
          [⟨2, "active", none, none, []⟩] [] [] []) 100 1 20 50 false).1.isSuccess = true
      ∧ (find_matches_for_job true true defaultGlobalWeights
          (MatchDB.mk [⟨1, none, "open", none, none, none, []⟩]
            [⟨2, "active", none, none, []⟩] [] [] []) 100 1 20 50 false).2.scores = [] := by
  constructor <;>
    simp [find_matches_for_job, calculate_matches_for_job, activeConsultants,
      weightsForClient, sortByScoreDesc, PyResult.isSuccess]

/-- Claim C9 as amended: when a data-access exception occurs during the
inline recomputation of `find_matches_for_job`, the partial writes are rolled
back and no exception reaches the caller, but the operation does not abort:
the inner handler in `_calculate_matches_for_job` swallows the failure and
the caller receives a success result built from the pre-existing rows.  (In
the shipped module the recomputation is not even reachable: every call fails
earlier with the `NameError` of claim C10.) -/
theorem C9_swallowed_failure_amended (global : MatchingWeights) (db : MatchDB) (now : ℚ)
    (job_id limit : Nat) (min_score : ℝ) (recalculate : Bool) (job : Job)
    (hfind : db.jobs.find? (fun j => j.id == job_id) = some job)
    (hneeds : (recalculate || !(db.scores.any (fun x => x.job_id == job_id))
        || db.scores.any (fun x => x.job_id == job_id
            && decide (x.last_calculated < now - 24))) = true) :
    (find_matches_for_job true true global db now
        job_id limit min_score recalculate).1.isSuccess = true
      ∧ (find_matches_for_job true true global db now
          job_id limit min_score recalculate).2 = db := by
  simp only [find_matches_for_job, hfind, Bool.not_true, Bool.false_eq_true, if_false,
    hneeds, if_true, calculate_matches_for_job, Bool.true_or]
  exact ⟨rfl, trivial⟩

/-- Witness for C9: a forced recomputation (`recalculate=True`) on a one-job
database with failing storage returns success and leaves the rows unchanged. -/
theorem C9_swallowed_failure_amended_witness :
    ((MatchDB.mk [⟨1, none, "open", none, none, none, []⟩]
        [⟨2, "active", none, none, []⟩] [] [] []).jobs.find? (fun j => j.id == 1)
      = some ⟨1, none, "open", none, none, none, []⟩)
    ∧ (find_matches_for_job true true defaultGlobalWeights
        (MatchDB.mk [⟨1, none, "open", none, none, none, []⟩]
          [⟨2, "active", none, none, []⟩] [] [] []) 50 1 5 60 true).2
      = MatchDB.mk [⟨1, none, "open", none, none, none, []⟩]
          [⟨2, "active", none, none, []⟩] [] [] [] := by
  have hfind : (MatchDB.mk [⟨1, none, "open", none, none, none, []⟩]
      [⟨2, "active", none, none, []⟩] [] [] []).jobs.find? (fun j => j.id == 1)
      = some ⟨1, none, "open", none, none, none, []⟩ := rfl
  exact ⟨hfind,
    (C9_swallowed_failure_amended defaultGlobalWeights
      (MatchDB.mk [⟨1, none, "open", none, none, none, []⟩]
        [⟨2, "active", none, none, []⟩] [] [] []) 50 1 5 60 true
      ⟨1, none, "open", none, none, none, []⟩ hfind rfl).2⟩
